import Mathlib

/-!
Verification of the self-registering generic factory in
`src/Generic_Factory.h` (namespace `fx::core`).

The header defines, per `(AbstractType, ConstructorArgs...)` family:
  * a static registry pointer `_registry_`, initially `nullptr`
    (modelled by `FactoryState`, whose `registry` field is `none` initially);
  * `Get_Registry`, which allocates an empty `std::map` on first use and
    returns the pointer (modelled by `Get_Registry` below, returning the
    current mapping together with the possibly-updated state);
  * `Construct(key, args...)`, which looks the key up and either returns
    `nullptr` (modelled by an explicit sentinel value `nullp`) or invokes
    the stored constructor;
  * `Factory_Registrar(designator, object_constructor)`, whose constructor
    inserts the pair only when the key is absent.

The registry `std::map<std::string, Constructor_t>` is modelled as an
association list with unique keys; `std::map::find` is `findCtor`.  The
compile-time ownership-trait machinery (`CheckForType`,
`Factory_Pointer_Traits_Impl`, `Factory_Pointer_Traits`) is modelled over a
descriptor that records whether the abstract type declares a nested
`Pointer_Type` and, if so, which handle kind it names.
-/

set_option autoImplicit false

namespace GenericFactory

/-- The three handle kinds offered by the header: `Shared_Pointer`
(`std::shared_ptr`), `Unique_Pointer` (`std::unique_ptr`) and
`Raw_Pointer` (`T*`). -/
inductive PointerKind where
  | shared
  | unique
  | raw
deriving DecidableEq, Repr

/-- Compile-time description of an `AbstractType`: whether it declares a
nested `Pointer_Type` (via the `FACTORY_POINTER_TYPE` macro) and, if so,
which handle kind that declaration names. -/
structure AbstractTypeDesc where
  pointerTypeDecl : Option PointerKind
deriving DecidableEq, Repr

/-- `CheckForType<T>::value`: SFINAE detection of a nested
`T::Pointer_Type` declaration. -/
def CheckForType (T : AbstractTypeDesc) : Bool :=
  T.pointerTypeDecl.isSome

/-- `Factory_Pointer_Traits_Impl<T, b>::type`: the primary template yields
`Shared_Pointer<T>`; the `b = true` specialization yields
`T::Pointer_Type`.  The `true` branch is only ever instantiated by
`Factory_Pointer_Traits` when `CheckForType` holds, i.e. when the nested
declaration is present, so the `getD` default is never reached there. -/
def Factory_Pointer_Traits_Impl (T : AbstractTypeDesc) : Bool → PointerKind
  | false => PointerKind.shared
  | true => T.pointerTypeDecl.getD PointerKind.shared

/-- `Factory_Pointer_Traits<T>::pointer_t =
Factory_Pointer_Traits_Impl<T, CheckForType<T>::value>::type`. -/
def Factory_Pointer_Traits (T : AbstractTypeDesc) : PointerKind :=
  Factory_Pointer_Traits_Impl T (CheckForType T)

/-- `Registry_t = std::map<std::string, Constructor_t>`, modelled as an
association list whose keys are unique (insertion below is guarded by a
membership test, so uniqueness is maintained). -/
abbrev Registry (C : Type) : Type := List (String × C)

/-- `std::map::find`: the stored constructor for `key`, if present. -/
def findCtor {C : Type} : Registry C → String → Option C
  | [], _ => none
  | (k, c) :: rest, key => if k == key then some c else findCtor rest key

/-- The per-family static state: the `_registry_` pointer, which is
`nullptr` (`none`) until `Get_Registry` first allocates the map. -/
structure FactoryState (C : Type) where
  registry : Option (Registry C)
deriving Repr

/-- The state at the start of the process: `_registry_ = nullptr`. -/
def initialState (C : Type) : FactoryState C := ⟨none⟩

/-- `Generic_Factory::Get_Registry`: if `_registry_ == nullptr`, allocate
an empty map and store it; return the map together with the updated
state. -/
def Get_Registry {C : Type} (s : FactoryState C) : Registry C × FactoryState C :=
  match s.registry with
  | none => ([], ⟨some []⟩)
  | some r => (r, s)

/-- The entries currently stored in the family registry (empty when the
registry has not been allocated yet). -/
def entries {C : Type} (s : FactoryState C) : Registry C :=
  s.registry.getD []

/-- `Factory_Registrar::Factory_Registrar(designator, object_constructor)`:
fetch the registry and insert the pair only when `find` misses. -/
def Factory_Registrar {C : Type} (s : FactoryState C) (designator : String)
    (object_constructor : C) : FactoryState C :=
  let gr := Get_Registry s
  if (findCtor gr.1 designator).isSome then gr.2
  else ⟨some ((designator, object_constructor) :: gr.1)⟩

/-- `Generic_Factory::Construct(key, arguments...)`: look `key` up in the
registry; return `nullptr` (the sentinel `nullp`) when absent, otherwise
invoke the stored constructor on the arguments.  Returns the result
together with the (possibly lazily initialized) state. -/
def Construct {Args P : Type} (nullp : P) (s : FactoryState (Args → P))
    (key : String) (arguments : Args) : P × FactoryState (Args → P) :=
  let gr := Get_Registry s
  match findCtor gr.1 key with
  | none => (nullp, gr.2)
  | some ctor => (ctor arguments, gr.2)

/-- A sequence of `Factory_Registrar` constructions run in order, as
happens during static initialization. -/
def registerAll {C : Type} (s : FactoryState C) : List (String × C) → FactoryState C
  | [] => s
  | (k, c) :: rest => registerAll (Factory_Registrar s k c) rest

/-- A process holding one independent `Generic_Factory` instantiation per
family index (the static `_registry_` is a distinct object per
`(AbstractType, ConstructorArgs...)` combination). -/
def ProcessState (F : Type) (C : F → Type) : Type := ∀ f : F, FactoryState (C f)

/-- A `Factory_Registrar` construction for family `f` inside a process:
only that family's static state is touched. -/
def registerInFamily {F : Type} [DecidableEq F] {C : F → Type}
    (p : ProcessState F C) (f : F) (k : String) (ctor : C f) : ProcessState F C :=
  Function.update p f (Factory_Registrar (p f) k ctor)

theorem Get_Registry_fst {C : Type} (s : FactoryState C) :
    (Get_Registry s).1 = entries s := by
  obtain ⟨reg⟩ := s
  cases reg <;> rfl

theorem findCtor_cons_self {C : Type} (r : Registry C) (k : String) (c : C) :
    findCtor ((k, c) :: r) k = some c := by
  simp [findCtor]

/-- Effect of one `Factory_Registrar` construction on the stored entries:
insert at a missing key, no-op at a present one. -/
theorem entries_Factory_Registrar {C : Type} (s : FactoryState C) (k : String) (c : C) :
    entries (Factory_Registrar s k c) =
      if (findCtor (entries s) k).isSome then entries s
      else (k, c) :: entries s := by
  obtain ⟨reg⟩ := s
  cases reg with
  | none => rfl
  | some r =>
    simp only [Factory_Registrar, Get_Registry, entries, Option.getD_some]
    split <;> simp [entries]

/-- Running further registrations that all reuse an already-taken key
leaves the allocated registry untouched. -/
theorem registerAll_same_key_fixed {C : Type} (r : Registry C) (k : String)
    (hk : (findCtor r k).isSome = true) (cs : List C) :
    registerAll ⟨some r⟩ (cs.map fun c => (k, c)) = ⟨some r⟩ := by
  induction cs with
  | nil => rfl
  | cons c cs ih =>
    simp only [List.map_cons, registerAll, Factory_Registrar, Get_Registry, hk,
      if_true, ih]

/-- C7: an AbstractType with no nested `Pointer_Type` declaration resolves
to shared ownership (`Shared_Pointer`, i.e. `std::shared_ptr`). -/
theorem traits_default_shared (T : AbstractTypeDesc)
    (h : T.pointerTypeDecl = none) :
    Factory_Pointer_Traits T = PointerKind.shared := by
  simp [Factory_Pointer_Traits, Factory_Pointer_Traits_Impl, CheckForType, h]

theorem traits_default_shared_witness :
    (AbstractTypeDesc.mk none).pointerTypeDecl = none ∧
      Factory_Pointer_Traits (AbstractTypeDesc.mk none) = PointerKind.shared :=
  ⟨rfl, traits_default_shared (AbstractTypeDesc.mk none) rfl⟩

/-- C8: an AbstractType whose nested `Pointer_Type` declaration names the
exclusive handle kind (`Unique_Pointer`, i.e. `std::unique_ptr`) resolves
to exactly that declared kind. -/
theorem traits_declared_unique (T : AbstractTypeDesc)
    (h : T.pointerTypeDecl = some PointerKind.unique) :
    Factory_Pointer_Traits T = PointerKind.unique := by
  simp [Factory_Pointer_Traits, Factory_Pointer_Traits_Impl, CheckForType, h]

theorem traits_declared_unique_witness :
    (AbstractTypeDesc.mk (some PointerKind.unique)).pointerTypeDecl
        = some PointerKind.unique ∧
      Factory_Pointer_Traits (AbstractTypeDesc.mk (some PointerKind.unique))
        = PointerKind.unique :=
  ⟨rfl, traits_declared_unique (AbstractTypeDesc.mk (some PointerKind.unique)) rfl⟩

/-- C1: starting from the process-initial state, after a first
`Factory_Registrar` construction registering `c` under key `k` and then any
number of further registrar constructions for the same key `k` (with
arbitrary constructor functions), `Construct k a` invokes the first
constructor ever registered: it returns `c a`.  Later duplicate
registrations are silently ignored and never replace the stored
constructor. -/
theorem first_registration_wins {Args P : Type} (nullp : P) (k : String)
    (c : Args → P) (cs : List (Args → P)) (a : Args) :
    (Construct nullp
        (registerAll (initialState (Args → P))
          ((k, c) :: cs.map fun c2 => (k, c2))) k a).1 = c a := by
  have h1 : Factory_Registrar (initialState (Args → P)) k c
      = ⟨some [(k, c)]⟩ := rfl
  have hk : (findCtor [(k, c)] k).isSome = true := by
    simp [findCtor]
  have h2 := registerAll_same_key_fixed [(k, c)] k hk cs
  simp only [registerAll, h1, h2, Construct, Get_Registry, findCtor,
    beq_self_eq_true, if_true]

/-- C2: whenever the pair `(k, ctor)` is stored in the family registry,
`Construct k a` returns exactly `ctor a`: the stored constructor is invoked
on the supplied arguments and its result is returned directly, with no
interposed handling. -/
theorem construct_invokes_registered {Args P : Type} (nullp : P)
    (s : FactoryState (Args → P)) (k : String) (ctor : Args → P) (a : Args)
    (h : findCtor (entries s) k = some ctor) :
    (Construct nullp s k a).1 = ctor a := by
  simp only [Construct, Get_Registry_fst, h]

theorem construct_invokes_registered_witness :
    findCtor (entries (⟨some [("a", fun n => n + 1)]⟩ : FactoryState (Nat → Nat))) "a"
        = some (fun n => n + 1) ∧
      (Construct 0 (⟨some [("a", fun n => n + 1)]⟩ : FactoryState (Nat → Nat)) "a" 5).1
        = (fun n : Nat => n + 1) 5 :=
  ⟨by simp [entries, findCtor],
    construct_invokes_registered 0 (⟨some [("a", fun n => n + 1)]⟩ : FactoryState (Nat → Nat))
      "a" (fun n => n + 1) 5 (by simp [entries, findCtor])⟩

/-- C3: for a key that is not stored in the family registry, `Construct`
returns the "not found" sentinel (`nullptr`, modelled by `nullp`) for every
argument tuple; absence is a normal result value, and `Construct` is a
total function that raises no exception. -/
theorem construct_unregistered_sentinel {Args P : Type} (nullp : P)
    (s : FactoryState (Args → P)) (k' : String) (a : Args)
    (h : findCtor (entries s) k' = none) :
    (Construct nullp s k' a).1 = nullp := by
  simp only [Construct, Get_Registry_fst, h]

theorem construct_unregistered_sentinel_witness :
    findCtor (entries (initialState (Nat → Nat))) "triangle" = none ∧
      (Construct 0 (initialState (Nat → Nat)) "triangle" 5).1 = 0 :=
  ⟨rfl, construct_unregistered_sentinel 0 (initialState (Nat → Nat)) "triangle" 5 rfl⟩

/-- C4: each family index has its own static registry, so a
`Factory_Registrar` construction for family `fA` leaves the state (and
hence every lookup) of any distinct family `fB` unchanged. -/
theorem family_isolation {F : Type} [DecidableEq F] {C : F → Type}
    (p : ProcessState F C) (fA fB : F) (k : String) (ctor : C fA)
    (h : fB ≠ fA) :
    registerInFamily p fA k ctor fB = p fB := by
  simp [registerInFamily, Function.update_noteq h]

theorem family_isolation_witness :
    (false ≠ true) ∧
      registerInFamily (fun _ : Bool => initialState Nat) true "X" 7 false
        = initialState Nat :=
  ⟨by decide,
    family_isolation (fun _ : Bool => initialState Nat) true false "X" 7 (by decide)⟩

/-- C5: `Get_Registry` creates the mapping empty on the very first call
(from the initial, null-pointer state), afterwards the state holds exactly
the returned (non-null) mapping, and calling `Get_Registry` again on the
resulting state returns the same mapping and state. -/
theorem get_registry_spec {C : Type} (s : FactoryState C) :
    Get_Registry (initialState C) = ([], ⟨some []⟩) ∧
      (Get_Registry s).2.registry = some (Get_Registry s).1 ∧
      Get_Registry (Get_Registry s).2 = ((Get_Registry s).1, (Get_Registry s).2) := by
  refine ⟨rfl, ?_, ?_⟩ <;> (obtain ⟨reg⟩ := s; cases reg <;> rfl)

/-- C6: the registrar's insertion inserts the pair when the key is absent
and leaves the registry exactly unchanged when the key is present; it is a
total operation that returns nothing and cannot fail. -/
theorem registrar_insert_spec {C : Type} (s : FactoryState C) (k : String) (c : C) :
    entries (Factory_Registrar s k c) =
      if (findCtor (entries s) k).isSome then entries s
      else (k, c) :: entries s :=
  entries_Factory_Registrar s k c

/-- C9: `Construct` never modifies the stored entries: the registry
contents after a call (for any key and arguments) are exactly the contents
before it. -/
theorem construct_preserves_entries {Args P : Type} (nullp : P)
    (s : FactoryState (Args → P)) (k : String) (a : Args) :
    entries (Construct nullp s k a).2 = entries s := by
  obtain ⟨reg⟩ := s
  cases reg with
  | none =>
    simp only [Construct, Get_Registry, findCtor, entries, Option.getD]
  | some r =>
    simp only [Construct, Get_Registry]
    cases findCtor r k <;> rfl

/-- C10: after a `Factory_Registrar s k c` construction, key `k` is present
in the registry — mapped to `c` when it was absent, to the previously
stored constructor otherwise — and every entry stored before is still
stored after. -/
theorem registrar_registers_key {C : Type} (s : FactoryState C) (k : String) (c : C) :
    findCtor (entries (Factory_Registrar s k c)) k
        = some ((findCtor (entries s) k).getD c) ∧
      ∀ k2 c2, findCtor (entries s) k2 = some c2 →
        findCtor (entries (Factory_Registrar s k c)) k2 = some c2 := by
  constructor
  · rw [entries_Factory_Registrar]
    cases hk : findCtor (entries s) k with
    | none => simp [findCtor_cons_self]
    | some c0 => simp [hk]
  · intro k2 c2 h2
    rw [entries_Factory_Registrar]
    cases hk : findCtor (entries s) k with
    | none =>
      simp only [Option.isSome_none, Bool.false_eq_true, if_false, findCtor]
      by_cases hkk : k == k2
      · exact absurd h2 (by rw [← eq_of_beq hkk, hk]; exact fun h => by cases h)
      · simp [hkk, h2]
    | some c0 => simp [hk, h2]

theorem registrar_registers_key_witness :
    findCtor (entries (⟨some [("b", 5)]⟩ : FactoryState Nat)) "b" = some 5 ∧
      findCtor (entries (Factory_Registrar (⟨some [("b", 5)]⟩ : FactoryState Nat) "a" 7)) "b"
        = some 5 :=
  ⟨by simp [entries, findCtor],
    (registrar_registers_key (⟨some [("b", 5)]⟩ : FactoryState Nat) "a" 7).2 "b" 5
      (by simp [entries, findCtor])⟩

end GenericFactory
